import Mathlib

/-!
Verification development for the varhub isolated-vm controller.

The definitions below are a shallow embedding of the TypeScript sources:

* src/util/DescriptorUtils.ts   (parseDescriptor / joinDescriptor)
* src/IsolatedVMProgram.ts      (module graph, resolver, dispose, value bridge,
  constructor context wiring)
* dist/util/TimeoutUtils.js     (guest timer stubs and host timer maps)

JavaScript Map objects are embedded as association lists with the exact
Map.set / Map.get / Map.delete semantics (unique keys, first-match lookup).
-/

set_option autoImplicit false

deriving instance DecidableEq for Except

namespace VarhubIVM

/-! ## Association-list model of a JavaScript Map -/

/-- Lookup, first matching key (Map.get). -/
def mget {α : Type} [DecidableEq α] {β : Type} : List (α × β) → α → Option β
  | [], _ => none
  | (k, v) :: t, a => if k = a then some v else mget t a

/-- Map.set semantics: replace the value at an existing key in place,
otherwise append the new entry at the end. -/
def mset {α : Type} [DecidableEq α] {β : Type} : List (α × β) → α → β → List (α × β)
  | [], a, b => [(a, b)]
  | (k, v) :: t, a, b => if k = a then (k, b) :: t else (k, v) :: mset t a b

/-- Map.delete semantics: remove the entry with the given key.  Keys are
unique in a Map, so removing every matching entry coincides with removing
the single entry. -/
def mdel {α : Type} [DecidableEq α] {β : Type} : List (α × β) → α → List (α × β)
  | [], _ => []
  | (k, v) :: t, a => if k = a then mdel t a else (k, v) :: mdel t a

/-! ## DescriptorUtils (src/util/DescriptorUtils.ts)

parseDescriptor matches a descriptor against the anchored regular expression

  /^(?:(\w*):)?(name-part)(?:\.([^?#\n]*))?(?:\?([^#\n]*))?(?:#([^\n]*))?$/

producing groups (specifier = whole match, protocol, name, extension, query,
hash).  `DescMatch d r` below is the declarative reading of that anchored
match: the descriptor splits literally into the optional protocol followed by
a colon, the name, an optional dot-extension, an optional question-query and
an optional hash part, each group drawn from (a superset of) its character
class.  Greediness and the lookaheads inside the name group only select one
split among the valid ones, so every result the engine can produce satisfies
DescMatch; theorems quantified over all DescMatch splits therefore cover the
output of parseDescriptor. -/

/-- Groups produced by a successful parseDescriptor match.  Group 2 (name)
always participates in a match, the other groups may be undefined. -/
structure ParsedDescriptor where
  specifier : String
  protocol : Option String
  name : String
  extension : Option String
  query : Option String
  hash : Option String
  deriving DecidableEq, Repr

/-! Executable string primitives over the character list of a string, used
in place of the opaque built-in string functions so that concrete instances
evaluate inside the kernel. -/

/-- Test that the second character list begins with the first. -/
def beginsWith : List Char → List Char → Bool
  | [], _ => true
  | _ :: _, [] => false
  | c :: p, d :: s => c = d && beginsWith p s

/-- JS String.startsWith. -/
def strStartsWith (s p : String) : Bool := beginsWith p.data s.data

/-- JS String.includes for a single-character needle. -/
def strContainsChar (s : String) (c : Char) : Bool := s.data.contains c

/-- Character-class test over a whole string. -/
def strAll (s : String) (p : Char → Bool) : Bool := s.data.all p

/-- JS word character, the class \w. -/
def isWordChar (c : Char) : Bool := c.isAlphanum || c = '_'

/-- Characters allowed in the name and extension groups: anything except a
question mark, a hash and a newline (the dot refinements of the name group
only shrink this set further). -/
def isBodyChar (c : Char) : Bool := c ≠ '?' && c ≠ '#' && c ≠ '\n'

/-- Characters allowed in the query group. -/
def isQueryChar (c : Char) : Bool := c ≠ '#' && c ≠ '\n'

/-- Characters allowed in the hash group. -/
def isHashChar (c : Char) : Bool := c ≠ '\n'

/-- Optional group rendered with its leading separator, as it occurs in the
matched text. -/
def optPart (sep : String) (o : Option String) : String :=
  match o with
  | none => ""
  | some s => sep ++ s

/-- Declarative reading of the anchored regex match of parseDescriptor:
the whole string is group 0 (the specifier) and splits into the five groups
with their concrete separators, each group satisfying its character class. -/
def DescMatch (d : String) (r : ParsedDescriptor) : Bool :=
  r.specifier == d
  && d == (match r.protocol with | none => "" | some p => p ++ ":")
        ++ r.name ++ optPart "." r.extension ++ optPart "?" r.query
        ++ optPart "#" r.hash
  && (match r.protocol with | none => true | some p => strAll p isWordChar)
  && strAll r.name isBodyChar
  && (match r.extension with | none => true | some e => strAll e isBodyChar)
  && (match r.query with | none => true | some q => strAll q isQueryChar)
  && (match r.hash with | none => true | some h => strAll h isHashChar)

/-- Input record of joinDescriptor; every field may be absent (undefined or
null in the source).  The specifier field is accepted and ignored, as in the
source. -/
structure DescParts where
  specifier : Option String := none
  protocol : Option String := none
  name : Option String := none
  extension : Option String := none
  query : Option String := none
  hash : Option String := none

/-- JS truthiness of an optional string: undefined, null and the empty
string are falsy. -/
def truthyStr : Option String → Bool
  | none => false
  | some s => s ≠ ""

/-- joinDescriptor from src/util/DescriptorUtils.ts: sequentially appends
protocol + colon, name, dot + extension, question mark + query and
hash sign + hash, skipping every falsy field. -/
def joinDescriptor (desc : DescParts) : String :=
  let r0 : String := ""
  let r1 := if truthyStr desc.protocol then r0 ++ desc.protocol.getD "" ++ ":" else r0
  let r2 := if truthyStr desc.name then r1 ++ desc.name.getD "" else r1
  let r3 := if truthyStr desc.extension then r2 ++ "." ++ desc.extension.getD "" else r2
  let r4 := if truthyStr desc.query then r3 ++ "?" ++ desc.query.getD "" else r3
  if truthyStr desc.hash then r4 ++ "#" ++ desc.hash.getD "" else r4

/-- View of a parse result as a joinDescriptor input. -/
def ParsedDescriptor.toParts (r : ParsedDescriptor) : DescParts :=
  { specifier := some r.specifier, protocol := r.protocol, name := some r.name,
    extension := r.extension, query := r.query, hash := r.hash }

/-- Every matched group of the parse is either absent or a non-empty
string. -/
def nonEmptyGroups (r : ParsedDescriptor) : Bool :=
  (match r.protocol with | none => true | some p => p ≠ "")
  && r.name ≠ ""
  && (match r.extension with | none => true | some e => e ≠ "")
  && (match r.query with | none => true | some q => q ≠ "")
  && (match r.hash with | none => true | some h => h ≠ "")

/-! ## Module specifier resolution (IsolatedVMProgram resolveModule) -/

/-- Outcome of the path-resolution step of the private resolveModule
callback (src/IsolatedVMProgram.ts lines 220-232): either the module path
that is then fetched through the module graph, or the private-module
error naming the specifier and the referrer. -/
inductive ResolveOutcome where
  | path (p : String)
  | privateModuleError (specifier referrerName : String)
  deriving DecidableEq, Repr

/-- Path resolution of resolveModule for a referrer of known canonical name.
The set of builtin module names is embedded as a list; url.resolve of the
node url package is an external collaborator and is passed as a function. -/
def resolveModulePath (builtinModuleNames : List String)
    (urlResolve : String → String → String)
    (referrerName specifier : String) : ResolveOutcome :=
  if strStartsWith specifier "#" then
    .path (referrerName ++ specifier)
  else if strContainsChar specifier '#' && !(referrerName ∈ builtinModuleNames) then
    .privateModuleError specifier referrerName
  else
    .path (urlResolve referrerName specifier)

/-! ## Constructor context wiring (IsolatedVMProgram constructor) -/

/-- Contexts owned by the Program: the guest-visible main context and the
safe helper context. -/
inductive IsolateContext where
  | mainCtx
  | safeCtx
  deriving DecidableEq, Repr

/-- Arguments of a createTimeoutUtils(context, evalContext) call: the context
whose global receives the timer globals, and the context whose evalSync
compiles the timer stub source. -/
structure TimeoutUtilsCall where
  installTarget : IsolateContext
  evalContext : IsolateContext
  deriving DecidableEq, Repr

/-- Call made by the IsolatedVMProgram constructor (line 56):
createTimeoutUtils(context, context), where context is the main context.
Both arguments are the main context; the safe context is not passed. -/
def programTimeoutUtilsCall : TimeoutUtilsCall :=
  { installTarget := .mainCtx, evalContext := .mainCtx }

/-- Context in which createTimeoutUtils compiles the guest timer stubs:
it calls evalContext.evalSync on the stub source. -/
def timerStubCompileContext (c : TimeoutUtilsCall) : IsolateContext :=
  c.evalContext

/-! ## Value bridge (createMaybeAsyncFunctionDeref, host side)

callFn below is the inner function of createMaybeAsyncFunctionDeref
(src/IsolatedVMProgram.ts lines 128-150): invoke the wrapped host function,
catch a synchronous throw, then test the resulting value with
instanceof Promise and build the envelope. -/

/-- Host-side JS value, distinguishing promise objects from other values
exactly as the instanceof Promise test does.  A promise object carries its
eventual settlement (rejected flag and settled value). -/
inductive JSValue where
  | plain (v : Int)
  | promiseObj (rejected : Bool) (settled : Int)
  deriving DecidableEq, Repr

/-- Result of invoking the wrapped host function on some argument list:
a synchronous throw of a value, or a normal return of a value. -/
inductive FnOutcome where
  | throws (v : JSValue)
  | returns (v : JSValue)
  deriving DecidableEq, Repr

/-- Behaviour of the get member of the produced envelope: either it returns
the stored value directly, or it returns the promise mapped through
p.then(v => ({rejected:false, value:v}), e => ({rejected:true, value:e})). -/
inductive EnvelopeGet where
  | direct (v : JSValue)
  | thenMapped (rejected : Bool) (value : Int)
  deriving DecidableEq, Repr

/-- Cross-boundary value envelope produced by callFn. -/
structure Envelope where
  isPromise : Bool
  isError : Bool
  get : EnvelopeGet
  deriving DecidableEq, Repr

/-- Inner callFn of createMaybeAsyncFunctionDeref, given the outcome of
invoking the wrapped host function: the caught-or-returned value is bound
first, isError records whether it was thrown, and isPromise is the
instanceof Promise test on that value, whether thrown or returned. -/
def callFn (outcome : FnOutcome) : Envelope :=
  let value : JSValue := match outcome with | .throws v => v | .returns v => v
  let isError : Bool := match outcome with | .throws _ => true | .returns _ => false
  match value with
  | .promiseObj rej s => { isPromise := true, isError := isError, get := .thenMapped rej s }
  | .plain n => { isPromise := false, isError := isError, get := .direct (.plain n) }

/-- Envelope produced for a host function f and an argument list, where f is
summarised by the outcome of its invocation per argument list. -/
def callFnOn (f : List Int → FnOutcome) (args : List Int) : Envelope :=
  callFn (f args)

/-! ## TimerBridge (dist/util/TimeoutUtils.js)

The guest stubs keep one Map per timer kind from integer id to the stored
closure () => cb(...args); the host keeps one Map per kind from id to the
native node handle.  The notify functions run on re-entry into the isolate
when a native timer fires: they call the stored hook through optional
chaining, so a missing id is a silent no-op. -/

/-- Guest value passed as the callback argument of a timer setter; the stubs
only inspect it through typeof. -/
inductive GuestValue where
  | jsFun (fid : Nat)
  | nonFun (typeofTag : String)
  deriving DecidableEq, Repr

/-- Stored guest hook, the closure () => cb(...args). -/
structure GuestHook where
  fid : Nat
  args : List Int
  deriving DecidableEq, Repr

/-- Host-side native timer handle; cancelled records that the node
clearTimeout / clearInterval / clearImmediate ran on it.  The delay of the
native timer is engine state and is not modelled. -/
structure NativeHandle where
  cancelled : Bool
  deriving DecidableEq, Repr

/-- Error thrown inside the guest; the kind distinguishes the Error
constructor from the TypeError constructor. -/
inductive GuestErrorKind where
  | errorCtor
  | typeErrorCtor
  deriving DecidableEq, Repr

/-- Guest-side thrown error value. -/
structure GuestError where
  kind : GuestErrorKind
  message : String
  deriving DecidableEq, Repr

/-- Combined state of the timer bridge: the three guest hook maps, the three
host handle maps, and the three id counters (each starts at 1). -/
structure TimerState where
  timeoutHooks : List (Nat × GuestHook)
  intervalHooks : List (Nat × GuestHook)
  immediateHooks : List (Nat × GuestHook)
  timeoutMap : List (Nat × NativeHandle)
  intervalMap : List (Nat × NativeHandle)
  immediateMap : List (Nat × NativeHandle)
  nextTimeoutId : Nat
  nextIntervalId : Nat
  nextImmediateId : Nat
  deriving DecidableEq, Repr

/-- State of the bridge right after createTimeoutUtils. -/
def initialTimerState : TimerState := ⟨[], [], [], [], [], [], 1, 1, 1⟩

/-- Bridge state with one pending timer of each kind under id 1; used to
instantiate theorems at a concrete input. -/
def sampleTimerState : TimerState :=
  ⟨[(1, ⟨7, []⟩)], [(1, ⟨8, []⟩)], [(1, ⟨9, []⟩)],
   [(1, ⟨false⟩)], [(1, ⟨false⟩)], [(1, ⟨false⟩)], 2, 2, 2⟩

/-- Node clearTimeout applied to the handle stored at the given id, when
present: the map keeps the entry, the handle becomes cancelled. -/
def cancelAt : List (Nat × NativeHandle) → Nat → List (Nat × NativeHandle)
  | [], _ => []
  | (k, h) :: t, a => if k = a then (k, ⟨true⟩) :: t else (k, h) :: cancelAt t a

/-- Guest setTimeout stub: reject a non-function callback with
new Error("callback must be a function"), otherwise let the host register a
native timeout under a fresh id and store the hook under that id. -/
def setTimeoutGuest (s : TimerState) (cb : GuestValue) (t : Int) (args : List Int) :
    TimerState × Except GuestError Nat :=
  match cb, t with
  | .nonFun _, _ => (s, .error ⟨.errorCtor, "callback must be a function"⟩)
  | .jsFun fid, _ =>
    let id := s.nextTimeoutId
    let s1 := { s with nextTimeoutId := id + 1, timeoutMap := mset s.timeoutMap id ⟨false⟩ }
    ({ s1 with timeoutHooks := mset s1.timeoutHooks id ⟨fid, args⟩ }, .ok id)

/-- Guest setInterval stub, same shape as setTimeout. -/
def setIntervalGuest (s : TimerState) (cb : GuestValue) (t : Int) (args : List Int) :
    TimerState × Except GuestError Nat :=
  match cb, t with
  | .nonFun _, _ => (s, .error ⟨.errorCtor, "callback must be a function"⟩)
  | .jsFun fid, _ =>
    let id := s.nextIntervalId
    let s1 := { s with nextIntervalId := id + 1, intervalMap := mset s.intervalMap id ⟨false⟩ }
    ({ s1 with intervalHooks := mset s1.intervalHooks id ⟨fid, args⟩ }, .ok id)

/-- Guest setImmediate stub; registerImmediate takes no time argument. -/
def setImmediateGuest (s : TimerState) (cb : GuestValue) (args : List Int) :
    TimerState × Except GuestError Nat :=
  match cb with
  | .nonFun _ => (s, .error ⟨.errorCtor, "callback must be a function"⟩)
  | .jsFun fid =>
    let id := s.nextImmediateId
    let s1 := { s with nextImmediateId := id + 1, immediateMap := mset s.immediateMap id ⟨false⟩ }
    ({ s1 with immediateHooks := mset s1.immediateHooks id ⟨fid, args⟩ }, .ok id)

/-- Guest clearTimeout stub: delete the hook, then let the host cancel the
native handle when one is stored under the id.  The stub body contains no
throwing operation, so it is a total function on the state. -/
def clearTimeoutGuest (s : TimerState) (id : Nat) : TimerState :=
  { s with timeoutHooks := mdel s.timeoutHooks id,
           timeoutMap := cancelAt s.timeoutMap id }

/-- Guest clearInterval stub. -/
def clearIntervalGuest (s : TimerState) (id : Nat) : TimerState :=
  { s with intervalHooks := mdel s.intervalHooks id,
           intervalMap := cancelAt s.intervalMap id }

/-- Guest clearImmediate stub. -/
def clearImmediateGuest (s : TimerState) (id : Nat) : TimerState :=
  { s with immediateHooks := mdel s.immediateHooks id,
           immediateMap := cancelAt s.immediateMap id }

/-- notifyTimeout, run inside the isolate when a native timeout fires:
invoke the hook stored under the id when present (optional chaining),
then delete the hook.  The returned option is the hook that ran. -/
def notifyTimeout (s : TimerState) (id : Nat) : TimerState × Option GuestHook :=
  ({ s with timeoutHooks := mdel s.timeoutHooks id }, mget s.timeoutHooks id)

/-- notifyInterval: invoke the stored hook when present; the hook stays. -/
def notifyInterval (s : TimerState) (id : Nat) : TimerState × Option GuestHook :=
  (s, mget s.intervalHooks id)

/-- notifyImmediate: invoke the stored hook when present, then delete it. -/
def notifyImmediate (s : TimerState) (id : Nat) : TimerState × Option GuestHook :=
  ({ s with immediateHooks := mdel s.immediateHooks id }, mget s.immediateHooks id)

/-- Host-side fire of a native timeout: notify the isolate, then remove the
host map entry. -/
def hostFireTimeout (s : TimerState) (id : Nat) : TimerState × Option GuestHook :=
  let (s1, fired) := notifyTimeout s id
  ({ s1 with timeoutMap := mdel s1.timeoutMap id }, fired)

/-- Host-side fire of a native immediate: notify, then remove the host
entry. -/
def hostFireImmediate (s : TimerState) (id : Nat) : TimerState × Option GuestHook :=
  let (s1, fired) := notifyImmediate s id
  ({ s1 with immediateMap := mdel s1.immediateMap id }, fired)

/-- Timer id not currently registered for the timeout kind: no guest hook is
stored, and the host map either has no entry (never issued, or fired) or a
cancelled handle (already cleared). -/
def timeoutNotRegistered (s : TimerState) (id : Nat) : Prop :=
  mget s.timeoutHooks id = none ∧
    (mget s.timeoutMap id = none ∨ mget s.timeoutMap id = some ⟨true⟩)

/-- Timer id not currently registered for the interval kind. -/
def intervalNotRegistered (s : TimerState) (id : Nat) : Prop :=
  mget s.intervalHooks id = none ∧
    (mget s.intervalMap id = none ∨ mget s.intervalMap id = some ⟨true⟩)

/-- Timer id not currently registered for the immediate kind. -/
def immediateNotRegistered (s : TimerState) (id : Nat) : Prop :=
  mget s.immediateHooks id = none ∧
    (mget s.immediateMap id = none ∨ mget s.immediateMap id = some ⟨true⟩)

instance (s : TimerState) (id : Nat) : Decidable (timeoutNotRegistered s id) := by
  unfold timeoutNotRegistered
  infer_instance

instance (s : TimerState) (id : Nat) : Decidable (intervalNotRegistered s id) := by
  unfold intervalNotRegistered
  infer_instance

instance (s : TimerState) (id : Nat) : Decidable (immediateNotRegistered s id) := by
  unfold immediateNotRegistered
  infer_instance

/-! ## Program disposal (IsolatedVMProgram, Symbol.dispose) -/

/-- Registered dispose hook: its identity and whether calling it throws;
the disposal loop swallows every throw. -/
structure DisposeHook where
  hid : Nat
  throwsOnRun : Bool
  deriving DecidableEq, Repr

/-- Observable event of the disposal path, in the order the code performs
them. -/
inductive DisposeEvent where
  | hookRun (hid : Nat)
  | isolateDisposeCall
  | disposedFlagSet
  | disposeEmit
  deriving DecidableEq, Repr

/-- Disposal-relevant state of a Program: the dispose hooks in insertion
order, the isDisposed flag and the trace of observable disposal events. -/
structure ProgramDisposeState where
  hooks : List DisposeHook
  isDisposed : Bool
  trace : List DisposeEvent
  deriving DecidableEq, Repr

/-- Trace segment added by one full disposal run: every hook in insertion
order (a throwing hook still counts as run, its error is swallowed), then
the isolate dispose call (errors swallowed), then the flag assignment,
then the dispose event emission. -/
def disposeTrace (hooks : List DisposeHook) : List DisposeEvent :=
  hooks.map (fun h => .hookRun h.hid) ++ [.isolateDisposeCall, .disposedFlagSet, .disposeEmit]

/-- Symbol.dispose: return at once when already disposed; otherwise run the
full disposal sequence and set the flag. -/
def disposeProgram (s : ProgramDisposeState) : ProgramDisposeState :=
  if s.isDisposed then s
  else { s with isDisposed := true, trace := s.trace ++ disposeTrace s.hooks }

/-- Number of dispose events emitted so far. -/
def emitCount (s : ProgramDisposeState) : Nat :=
  s.trace.count .disposeEmit

/-- Program with two dispose hooks, the first of which throws; used to
instantiate theorems at a concrete input. -/
def sampleDisposeState : ProgramDisposeState :=
  ⟨[⟨1, true⟩, ⟨2, false⟩], false, []⟩

/-! ## Module graph (IsolatedVMProgram module methods)

The module promise map is an association list from key (a descriptor or a
canonical name) to the module entry stored there; the identity of the
underlying promise and compiled module is the mid field.  The SourceProvider
is embedded as the function from descriptor to the canonical name it
returns (getSource text and type reach the model only through evalFails,
which records for each canonical name whether the
compile-instantiate-evaluate pipeline of the created module rejects; the
pipeline itself runs inside the engine).  Awaiting a stored promise is
folded into the operation that returns it: a lookup hitting a rejected
entry returns the same rejection every time. -/

/-- Module entry: promise identity, canonical name, and whether its
evaluation pipeline rejected. -/
structure Mod where
  mid : Nat
  name : String
  failed : Bool
  deriving DecidableEq, Repr

/-- Errors surfaced by the module operations. -/
inductive ModErr where
  | moduleAlreadyExists (name : String)
  | moduleNotFound (descriptor : String)
  | evaluationError (name : String)
  deriving DecidableEq, Repr

/-- Graph state: the promise map, the module-to-wrapper map (wrapper handle
ids stand for ProgramModule identities), and the two id allocators. -/
structure GraphState where
  modulePromiseMap : List (String × Mod)
  moduleWrapperMap : List (Nat × Nat)
  nextMid : Nat
  nextWrapperId : Nat
  deriving DecidableEq, Repr

/-- Graph of a freshly constructed Program. -/
def emptyGraph : GraphState := ⟨[], [], 0, 0⟩

/-- Awaiting a stored module promise: the rejection of a failed pipeline,
or the module itself. -/
def awaitMod (m : Mod) : Except ModErr Mod :=
  if m.failed then .error (.evaluationError m.name) else .ok m

/-- createIsolatedModule(moduleName, src, type, additionalNames): throw
when the name is already a key of the promise map; otherwise create the
module entry, store it under the name and then under every additional
name, and return the settled promise. -/
def createIsolatedModule (evalFails : String → Bool) (st : GraphState)
    (name : String) (additionalNames : List String) : GraphState × Except ModErr Mod :=
  match mget st.modulePromiseMap name with
  | some _ => (st, .error (.moduleAlreadyExists name))
  | none =>
    let m : Mod := ⟨st.nextMid, name, evalFails name⟩
    let map1 := mset st.modulePromiseMap name m
    let map2 := additionalNames.foldl (fun acc k => mset acc k m) map1
    ({ st with modulePromiseMap := map2, nextMid := st.nextMid + 1 }, awaitMod m)

/-- getIsolatedModule(moduleDescriptor, from): return the stored promise
for the descriptor when present; otherwise consult the SourceProvider,
fail with module-not-found when it returns undefined; return the stored
promise under the provided canonical name when present; otherwise create
the module under the canonical name with the descriptor as additional
key. -/
def getIsolatedModule (provider : String → Option String) (evalFails : String → Bool)
    (st : GraphState) (descriptor : String) : GraphState × Except ModErr Mod :=
  match mget st.modulePromiseMap descriptor with
  | some m => (st, awaitMod m)
  | none =>
    match provider descriptor with
    | none => (st, .error (.moduleNotFound descriptor))
    | some name =>
      match mget st.modulePromiseMap name with
      | some m => (st, awaitMod m)
      | none => createIsolatedModule evalFails st name [descriptor]

/-- getModule(moduleName): resolve the module, then return the existing
ProgramModule wrapper for it, creating and recording one on first use. -/
def getModule (provider : String → Option String) (evalFails : String → Bool)
    (st : GraphState) (descriptor : String) : GraphState × Except ModErr Nat :=
  match getIsolatedModule provider evalFails st descriptor with
  | (st1, .error e) => (st1, .error e)
  | (st1, .ok m) =>
    match mget st1.moduleWrapperMap m.mid with
    | some w => (st1, .ok w)
    | none =>
      ({ st1 with moduleWrapperMap := mset st1.moduleWrapperMap m.mid st1.nextWrapperId,
                  nextWrapperId := st1.nextWrapperId + 1 },
       .ok st1.nextWrapperId)

/-- createModule(moduleName, code, type): fire createIsolatedModule without
awaiting it (the void in the source detaches any rejection, which never
reaches the caller), then return getModule(moduleName).  The third
component is the detached rejection, returned for observation. -/
def createModule (provider : String → Option String) (evalFails : String → Bool)
    (st : GraphState) (name : String) : GraphState × Except ModErr Nat × Option ModErr :=
  let r1 := createIsolatedModule evalFails st name []
  let detached : Option ModErr := match r1.2 with | .error e => some e | .ok _ => none
  let r2 := getModule provider evalFails r1.1 name
  (r2.1, r2.2, detached)

/-- Host-visible operations that touch the module graph. -/
inductive GraphOp where
  | getOp (descriptor : String)
  | createOp (name : String)
  deriving DecidableEq, Repr

/-- State reached after one graph operation. -/
def applyGraphOp (provider : String → Option String) (evalFails : String → Bool)
    (st : GraphState) : GraphOp → GraphState
  | .getOp d => (getModule provider evalFails st d).1
  | .createOp n => (createModule provider evalFails st n).1

/-- State reached after a sequence of graph operations. -/
def applyGraphOps (provider : String → Option String) (evalFails : String → Bool)
    (st : GraphState) (ops : List GraphOp) : GraphState :=
  ops.foldl (applyGraphOp provider evalFails) st

/-- Every module stored in the promise map is also stored under its own
canonical name; this holds in the empty graph and is preserved by every
operation. -/
def NameBound (st : GraphState) : Prop :=
  ∀ k m, mget st.modulePromiseMap k = some m → mget st.modulePromiseMap m.name = some m

/-- SourceProvider with no sources at all. -/
def noProvider : String → Option String := fun _ => none

/-- Evaluation pipeline that never rejects. -/
def efNever : String → Bool := fun _ => false

/-- SourceProvider mapping both the descriptor index.js and the alias foo
to the canonical name index.js. -/
def aliasProvider : String → Option String := fun d =>
  if d = "index.js" then some "index.js"
  else if d = "foo" then some "index.js"
  else none

/-- State after createModule("a") on the empty graph. -/
def c1State1 : GraphState := (createModule noProvider efNever emptyGraph "a").1

/-- State after getModule("index.js") on the empty graph with the alias
provider. -/
def c7State1 : GraphState := (getModule aliasProvider efNever emptyGraph "index.js").1

/-- State after the additional getModule("foo"). -/
def c7State2 : GraphState := (getModule aliasProvider efNever c7State1 "foo").1

/-- State after the additional createModule("foo"), which creates a second
module stored under the alias key. -/
def c7State3 : GraphState := (createModule aliasProvider efNever c7State2 "foo").1

end VarhubIVM

namespace VarhubIVM

/-! ## Theorems for claims C9, C2, C3, C4 -/

/-! Lemmas about the Map embedding. -/

theorem mget_mset_self {α : Type} [DecidableEq α] {β : Type}
    (m : List (α × β)) (a : α) (b : β) : mget (mset m a b) a = some b := by
  induction m with
  | nil => simp [mget, mset]
  | cons hd t ih =>
    obtain ⟨k, v⟩ := hd
    by_cases hk : k = a
    · simp [mget, mset, hk]
    · simp [mget, mset, hk, ih]

theorem mget_mset_ne {α : Type} [DecidableEq α] {β : Type}
    (m : List (α × β)) (a a' : α) (b : β) (h : a' ≠ a) :
    mget (mset m a b) a' = mget m a' := by
  induction m with
  | nil =>
    simp only [mset, mget]
    rw [if_neg (fun hc => h hc.symm)]
  | cons hd t ih =>
    obtain ⟨k, v⟩ := hd
    by_cases hk : k = a
    · subst hk
      have hka' : k ≠ a' := fun hc => h hc.symm
      simp only [mset, if_pos rfl, mget, if_neg hka']
    · simp only [mset, if_neg hk, mget]
      by_cases hk' : k = a'
      · simp [hk']
      · simp [hk', ih]

theorem mdel_absent {α : Type} [DecidableEq α] {β : Type}
    (m : List (α × β)) (a : α) (h : mget m a = none) : mdel m a = m := by
  induction m with
  | nil => rfl
  | cons hd t ih =>
    obtain ⟨k, v⟩ := hd
    by_cases hk : k = a
    · simp [mget, hk] at h
    · simp only [mget, if_neg hk] at h
      simp [mdel, hk, ih h]

theorem mget_mdel_self {α : Type} [DecidableEq α] {β : Type}
    (m : List (α × β)) (a : α) : mget (mdel m a) a = none := by
  induction m with
  | nil => rfl
  | cons hd t ih =>
    obtain ⟨k, v⟩ := hd
    by_cases hk : k = a
    · simp [mdel, hk, ih]
    · simp [mdel, hk, mget, ih]

theorem mget_mdel_ne {α : Type} [DecidableEq α] {β : Type}
    (m : List (α × β)) (a a' : α) (h : a' ≠ a) :
    mget (mdel m a) a' = mget m a' := by
  induction m with
  | nil => rfl
  | cons hd t ih =>
    obtain ⟨k, v⟩ := hd
    by_cases hk : k = a
    · subst hk
      have hka' : k ≠ a' := fun hc => h hc.symm
      simp [mdel, mget, if_neg hka', ih]
    · simp only [mdel, if_neg hk, mget]
      by_cases hk' : k = a'
      · simp [hk', ih]
      · simp [hk', ih]

theorem cancelAt_noop (m : List (Nat × NativeHandle)) (a : Nat)
    (h : mget m a = none ∨ mget m a = some ⟨true⟩) : cancelAt m a = m := by
  induction m with
  | nil => rfl
  | cons hd t ih =>
    obtain ⟨k, v⟩ := hd
    by_cases hk : k = a
    · subst hk
      simp only [mget, if_pos rfl] at h
      rcases h with h | h
      · exact absurd h (Option.some_ne_none v)
      · have hv : v = ⟨true⟩ := Option.some.inj h
        subst hv
        simp [cancelAt]
    · simp only [mget, if_neg hk] at h
      simp [cancelAt, hk, ih h]


/-- C9: for every descriptor string d accepted by parseDescriptor in which
each matched component (protocol, name, extension, query, hash) is either
absent or non-empty, joinDescriptor applied to the parse reproduces d, and
the specifier group of the parse equals d. -/
theorem c9_parse_join_round_trip (d : String) (r : ParsedDescriptor)
    (hm : DescMatch d r = true) (hne : nonEmptyGroups r = true) :
    joinDescriptor r.toParts = d ∧ r.specifier = d := by
  rcases r with ⟨spec, proto, nm, ext, qu, ha⟩
  simp only [DescMatch, Bool.and_eq_true, beq_iff_eq] at hm
  obtain ⟨⟨⟨⟨⟨⟨hspec, hd⟩, hp⟩, hn⟩, he⟩, hq⟩, hh⟩ := hm
  simp only [nonEmptyGroups, Bool.and_eq_true, decide_eq_true_eq] at hne
  refine ⟨?_, hspec⟩
  subst hd
  cases proto <;> cases ext <;> cases qu <;> cases ha <;>
    simp_all [joinDescriptor, truthyStr, optPart, ParsedDescriptor.toParts,
      String.append_assoc, String.empty_append, String.append_empty]

/-- Concrete parse result used to instantiate the C9 round-trip. -/
def sampleParse : ParsedDescriptor :=
  { specifier := "file:abc.js?v=1#frag", protocol := some "file", name := "abc",
    extension := some "js", query := some "v=1", hash := some "frag" }

/-- Witness for C9 at a concrete descriptor with all five groups present. -/
theorem c9_round_trip_witness :
    joinDescriptor sampleParse.toParts = "file:abc.js?v=1#frag" ∧
    sampleParse.specifier = "file:abc.js?v=1#frag" :=
  c9_parse_join_round_trip "file:abc.js?v=1#frag" sampleParse (by decide) (by decide)

/-- C2: resolution of an import specifier s against a referrer of canonical
name r follows the three-way branch of resolveModule: a leading hash yields
the private submodule path r ++ s; an embedded hash with a non-builtin
referrer fails with the private-module error naming s and r; otherwise the
result is the url resolution of s against r. -/
theorem c2_resolve_specifier (builtins : List String)
    (urlResolve : String → String → String) (r s : String) :
    (strStartsWith s "#" = true →
      resolveModulePath builtins urlResolve r s = .path (r ++ s)) ∧
    (strStartsWith s "#" = false → strContainsChar s '#' = true → r ∉ builtins →
      resolveModulePath builtins urlResolve r s = .privateModuleError s r) ∧
    (strStartsWith s "#" = false → (strContainsChar s '#' = false ∨ r ∈ builtins) →
      resolveModulePath builtins urlResolve r s = .path (urlResolve r s)) := by
  refine ⟨fun h1 => ?_, fun h1 h2 h3 => ?_, fun h1 h2 => ?_⟩
  · simp [resolveModulePath, h1]
  · simp [resolveModulePath, h1, h2, h3]
  · rcases h2 with h2 | h2 <;> simp [resolveModulePath, h1, h2]

/-- Witness for C2 at three concrete specifier-referrer pairs, one per
branch. -/
theorem c2_resolve_specifier_witness :
    resolveModulePath [] (fun _ s => s) "index.js" "#inner" = .path "index.js#inner" ∧
    resolveModulePath [] (fun _ s => s) "evil.js" "holy.js#inner"
      = .privateModuleError "holy.js#inner" "evil.js" ∧
    resolveModulePath [] (fun _ s => s) "index.js" "other.js" = .path "other.js" :=
  ⟨(c2_resolve_specifier [] (fun _ s => s) "index.js" "#inner").1 (by decide),
   (c2_resolve_specifier [] (fun _ s => s) "evil.js" "holy.js#inner").2.1
     (by decide) (by decide) (by simp),
   (c2_resolve_specifier [] (fun _ s => s) "index.js" "other.js").2.2
     (by decide) (Or.inl (by decide))⟩

/-- C3 counterexample: the constructor passes the main context as the eval
context of createTimeoutUtils, so the timer stubs are compiled in the
guest-visible main context, not in the safe context. -/
theorem c3_counterexample :
    timerStubCompileContext programTimeoutUtilsCall = IsolateContext.mainCtx ∧
    IsolateContext.mainCtx ≠ IsolateContext.safeCtx := by
  decide

/-- C3 amended: the timer bridge is installed into the main context using
helper code evaluated in the main context itself; createTimeoutUtils
receives the main context both as install target and as eval context, so
the timer stubs are compiled in the guest-visible main context. -/
theorem c3_amended_timer_stub_context :
    timerStubCompileContext programTimeoutUtilsCall = programTimeoutUtilsCall.installTarget ∧
    programTimeoutUtilsCall.installTarget = IsolateContext.mainCtx := by
  decide

/-- C4 counterexample: a host function that synchronously throws a promise
object produces an envelope with isPromise true, contradicting the claim
that every synchronous throw yields isPromise false. -/
theorem c4_counterexample :
    (callFnOn (fun _ => FnOutcome.throws (JSValue.promiseObj false 0)) []).isError = true ∧
    (callFnOn (fun _ => FnOutcome.throws (JSValue.promiseObj false 0)) []).isPromise = true := by
  decide

/-- C4 amended: for every host function and argument list, a synchronous
throw of a non-promise value yields the envelope with isError true and
isPromise false whose get returns the thrown value; a returned non-promise
v yields isError false and isPromise false with get returning v; a returned
promise yields isPromise true with get returning the then-mapped promise;
and a thrown promise object yields isPromise true together with isError
true. -/
theorem c4_amended_envelope (f : List Int → FnOutcome) (args : List Int) :
    callFnOn f args = match f args with
      | .throws (.plain n) =>
        { isPromise := false, isError := true, get := .direct (.plain n) }
      | .throws (.promiseObj rej s) =>
        { isPromise := true, isError := true, get := .thenMapped rej s }
      | .returns (.plain n) =>
        { isPromise := false, isError := false, get := .direct (.plain n) }
      | .returns (.promiseObj rej s) =>
        { isPromise := true, isError := false, get := .thenMapped rej s } := by
  unfold callFnOn
  cases hf : f args with
  | throws v => cases v <;> simp [callFn]
  | returns v => cases v <;> simp [callFn]

/-! ## Theorems for claims C5, C8, C10 -/

/-- C5: after a guest clear of a timer id, the notify path that a host-side
fire re-enters the isolate with never invokes a hook for that id, for any
bridge state, in particular a state where the native timer had already
fired on the host side; the cleared id also has no stored hook left. -/
theorem c5_cleared_timer_never_fires (s : TimerState) (id : Nat) :
    (notifyTimeout (clearTimeoutGuest s id) id).2 = none ∧
    (notifyInterval (clearIntervalGuest s id) id).2 = none ∧
    (notifyImmediate (clearImmediateGuest s id) id).2 = none ∧
    mget (clearTimeoutGuest s id).timeoutHooks id = none ∧
    mget (clearIntervalGuest s id).intervalHooks id = none ∧
    mget (clearImmediateGuest s id).immediateHooks id = none := by
  refine ⟨?_, ?_, ?_, ?_, ?_, ?_⟩ <;>
    simp [notifyTimeout, notifyInterval, notifyImmediate, clearTimeoutGuest,
      clearIntervalGuest, clearImmediateGuest, mget_mdel_self]

/-- C8 counterexample: a non-function callback makes the guest setTimeout
stub throw new Error("callback must be a function"), a plain Error and not
a TypeError. -/
theorem c8_counterexample :
    (setTimeoutGuest initialTimerState (.nonFun "number") 0 []).2
      = .error ⟨.errorCtor, "callback must be a function"⟩ ∧
    GuestErrorKind.errorCtor ≠ GuestErrorKind.typeErrorCtor := by
  constructor
  · rfl
  · decide

/-- C8 amended: for every guest call of setTimeout, setInterval or
setImmediate whose first argument is not a function, the stub throws a
guest-side Error (the plain Error constructor, not TypeError) with message
"callback must be a function", and the bridge state is unchanged, so no
timer is registered. -/
theorem c8_amended_nonfunction_callback (s : TimerState) (tag : String)
    (t : Int) (args : List Int) :
    setTimeoutGuest s (.nonFun tag) t args
      = (s, .error ⟨.errorCtor, "callback must be a function"⟩) ∧
    setIntervalGuest s (.nonFun tag) t args
      = (s, .error ⟨.errorCtor, "callback must be a function"⟩) ∧
    setImmediateGuest s (.nonFun tag) args
      = (s, .error ⟨.errorCtor, "callback must be a function"⟩) := by
  refine ⟨rfl, rfl, rfl⟩

/-- C10: clearing an id that is not currently registered for its kind
(never issued, already fired, or already cleared) leaves the whole bridge
state unchanged, hence every other pending timer of every kind is
untouched; the clear stubs are total, so the call returns normally. -/
theorem c10_clear_unknown_id_noop (s : TimerState) (id : Nat) :
    (timeoutNotRegistered s id → clearTimeoutGuest s id = s) ∧
    (intervalNotRegistered s id → clearIntervalGuest s id = s) ∧
    (immediateNotRegistered s id → clearImmediateGuest s id = s) := by
  refine ⟨fun h => ?_, fun h => ?_, fun h => ?_⟩
  · obtain ⟨h1, h2⟩ := h
    simp [clearTimeoutGuest, mdel_absent _ _ h1, cancelAt_noop _ _ h2]
  · obtain ⟨h1, h2⟩ := h
    simp [clearIntervalGuest, mdel_absent _ _ h1, cancelAt_noop _ _ h2]
  · obtain ⟨h1, h2⟩ := h
    simp [clearImmediateGuest, mdel_absent _ _ h1, cancelAt_noop _ _ h2]

/-- Witness for C10: clearing the unknown id 2 in a state holding one
pending timer of each kind under id 1 changes nothing. -/
theorem c10_clear_unknown_id_noop_witness :
    clearTimeoutGuest sampleTimerState 2 = sampleTimerState ∧
    clearIntervalGuest sampleTimerState 2 = sampleTimerState ∧
    clearImmediateGuest sampleTimerState 2 = sampleTimerState :=
  ⟨(c10_clear_unknown_id_noop sampleTimerState 2).1 (by decide),
   (c10_clear_unknown_id_noop sampleTimerState 2).2.1 (by decide),
   (c10_clear_unknown_id_noop sampleTimerState 2).2.2 (by decide)⟩

/-! ## Theorems for claim C6 -/

theorem disposeProgram_fixed (t : ProgramDisposeState) (ht : t.isDisposed = true) :
    disposeProgram t = t := by
  simp [disposeProgram, ht]

/-- C6: dispose is idempotent.  On a live Program it appends the full
disposal trace (every hook in insertion order with errors swallowed, then
the isolate dispose call with errors swallowed, then the flag assignment,
then the dispose event) and sets isDisposed; emitting exactly one more
dispose event.  On an already disposed Program it is a no-op, and after the
first call every iterate of dispose leaves the state of the first call, so
the dispose event is emitted at most once over the lifetime. -/
theorem c6_dispose_idempotent (s : ProgramDisposeState) :
    (s.isDisposed = false →
      disposeProgram s
        = { s with isDisposed := true, trace := s.trace ++ disposeTrace s.hooks } ∧
      emitCount (disposeProgram s) = emitCount s + 1) ∧
    (s.isDisposed = true → disposeProgram s = s) ∧
    (disposeProgram s).isDisposed = true ∧
    (∀ n : Nat, disposeProgram^[n] (disposeProgram s) = disposeProgram s) := by
  have hdisp : (disposeProgram s).isDisposed = true := by
    by_cases hs : s.isDisposed = true
    · simp [disposeProgram, hs]
    · simp only [Bool.not_eq_true] at hs
      simp [disposeProgram, hs]
  refine ⟨fun hs => ⟨?_, ?_⟩, fun hs => disposeProgram_fixed s hs, hdisp,
    fun n => Function.iterate_fixed (disposeProgram_fixed _ hdisp) n⟩
  · simp [disposeProgram, hs]
  · have h0 : (s.hooks.map (fun h => DisposeEvent.hookRun h.hid)).count
        DisposeEvent.disposeEmit = 0 := by
      rw [List.count_eq_zero]
      simp
    simp [disposeProgram, hs, emitCount, disposeTrace, List.count_append, h0]

/-- Witness for C6 on a live Program with two hooks, the first of which
throws. -/
theorem c6_dispose_idempotent_witness :
    disposeProgram sampleDisposeState
      = { sampleDisposeState with
            isDisposed := true,
            trace := sampleDisposeState.trace ++ disposeTrace sampleDisposeState.hooks } ∧
    emitCount (disposeProgram sampleDisposeState) = emitCount sampleDisposeState + 1 ∧
    (disposeProgram sampleDisposeState).isDisposed = true :=
  ⟨((c6_dispose_idempotent sampleDisposeState).1 (by decide)).1,
   ((c6_dispose_idempotent sampleDisposeState).1 (by decide)).2,
   (c6_dispose_idempotent sampleDisposeState).2.2.1⟩

/-! ## Lemmas about the module graph -/

theorem mget_mset {α : Type} [DecidableEq α] {β : Type}
    (m : List (α × β)) (a : α) (b : β) (a' : α) :
    mget (mset m a b) a' = if a' = a then some b else mget m a' := by
  by_cases h : a' = a
  · subst h
    simp [mget_mset_self]
  · simp [h, mget_mset_ne m a a' b h]

theorem mget_foldl_mset (adds : List String) (map : List (String × Mod)) (v : Mod)
    (k : String) (m : Mod) (hk : mget map k = some m) (hadds : ∀ a ∈ adds, a ≠ k) :
    mget (adds.foldl (fun acc a => mset acc a v) map) k = some m := by
  induction adds generalizing map with
  | nil => simpa using hk
  | cons a t ih =>
    simp only [List.foldl_cons]
    apply ih
    · rw [mget_mset_ne map a k v fun hc => (hadds a (List.mem_cons_self a t)) hc.symm]
      exact hk
    · intro a' ha'
      exact hadds a' (List.mem_cons_of_mem _ ha')

theorem createIso_map_preserved (evalFails : String → Bool) (st : GraphState)
    (name : String) (adds : List String) (k : String) (m : Mod)
    (hadds : ∀ a ∈ adds, mget st.modulePromiseMap a = none)
    (hk : mget st.modulePromiseMap k = some m) :
    mget ((createIsolatedModule evalFails st name adds).1).modulePromiseMap k = some m := by
  unfold createIsolatedModule
  cases hn : mget st.modulePromiseMap name with
  | some m' => exact hk
  | none =>
    have hkname : k ≠ name := fun hc => by rw [hc, hn] at hk; cases hk
    simp only
    apply mget_foldl_mset
    · rw [mget_mset_ne _ _ _ _ hkname]
      exact hk
    · intro a ha hc
      subst hc
      rw [hadds a ha] at hk
      cases hk

theorem createIso_wrappers_eq (evalFails : String → Bool) (st : GraphState)
    (name : String) (adds : List String) :
    ((createIsolatedModule evalFails st name adds).1).moduleWrapperMap
      = st.moduleWrapperMap := by
  unfold createIsolatedModule
  cases hn : mget st.modulePromiseMap name <;> rfl

theorem getIso_map_preserved (provider : String → Option String) (evalFails : String → Bool)
    (st : GraphState) (d : String) (k : String) (m : Mod)
    (hk : mget st.modulePromiseMap k = some m) :
    mget ((getIsolatedModule provider evalFails st d).1).modulePromiseMap k = some m := by
  unfold getIsolatedModule
  cases h1 : mget st.modulePromiseMap d with
  | some m1 => exact hk
  | none =>
    dsimp only
    cases h2 : provider d with
    | none => exact hk
    | some name =>
      dsimp only
      cases h3 : mget st.modulePromiseMap name with
      | some m3 => exact hk
      | none =>
        dsimp only
        refine createIso_map_preserved evalFails st name [d] k m ?_ hk
        intro a ha
        rw [List.mem_singleton] at ha
        subst ha
        exact h1

theorem getIso_wrappers_eq (provider : String → Option String) (evalFails : String → Bool)
    (st : GraphState) (d : String) :
    ((getIsolatedModule provider evalFails st d).1).moduleWrapperMap
      = st.moduleWrapperMap := by
  unfold getIsolatedModule
  cases h1 : mget st.modulePromiseMap d with
  | some m1 => rfl
  | none =>
    dsimp only
    cases h2 : provider d with
    | none => rfl
    | some name =>
      dsimp only
      cases h3 : mget st.modulePromiseMap name with
      | some m3 => rfl
      | none =>
        dsimp only
        exact createIso_wrappers_eq evalFails st name [d]

theorem getModule_map_eq (provider : String → Option String) (evalFails : String → Bool)
    (st : GraphState) (d : String) :
    ((getModule provider evalFails st d).1).modulePromiseMap
      = ((getIsolatedModule provider evalFails st d).1).modulePromiseMap := by
  unfold getModule
  cases hgi : getIsolatedModule provider evalFails st d with
  | mk st1 r =>
    cases r with
    | error e => rfl
    | ok m =>
      dsimp only
      cases hw : mget st1.moduleWrapperMap m.mid with
      | some w => rfl
      | none => rfl

theorem getModule_map_preserved (provider : String → Option String)
    (evalFails : String → Bool) (st : GraphState) (d : String) (k : String) (m : Mod)
    (hk : mget st.modulePromiseMap k = some m) :
    mget ((getModule provider evalFails st d).1).modulePromiseMap k = some m := by
  rw [getModule_map_eq]
  exact getIso_map_preserved provider evalFails st d k m hk

theorem getModule_wrapper_preserved (provider : String → Option String)
    (evalFails : String → Bool) (st : GraphState) (d : String) (w : Nat) (h : Nat)
    (hw : mget st.moduleWrapperMap w = some h) :
    mget ((getModule provider evalFails st d).1).moduleWrapperMap w = some h := by
  unfold getModule
  cases hgi : getIsolatedModule provider evalFails st d with
  | mk st1 r =>
    have hw1 : mget st1.moduleWrapperMap w = some h := by
      have := getIso_wrappers_eq provider evalFails st d
      rw [hgi] at this
      rw [this]
      exact hw
    cases r with
    | error e => exact hw1
    | ok m =>
      dsimp only
      cases hwm : mget st1.moduleWrapperMap m.mid with
      | some w' => exact hw1
      | none =>
        have hne : w ≠ m.mid := fun hc => by rw [hc, hwm] at hw1; cases hw1
        dsimp only
        rw [mget_mset_ne _ _ _ _ hne]
        exact hw1

theorem createModule_map_preserved (provider : String → Option String)
    (evalFails : String → Bool) (st : GraphState) (n : String) (k : String) (m : Mod)
    (hk : mget st.modulePromiseMap k = some m) :
    mget ((createModule provider evalFails st n).1).modulePromiseMap k = some m := by
  unfold createModule
  simp only
  apply getModule_map_preserved
  exact createIso_map_preserved evalFails st n [] k m (by intro a ha; cases ha) hk

theorem createModule_wrapper_preserved (provider : String → Option String)
    (evalFails : String → Bool) (st : GraphState) (n : String) (w : Nat) (h : Nat)
    (hw : mget st.moduleWrapperMap w = some h) :
    mget ((createModule provider evalFails st n).1).moduleWrapperMap w = some h := by
  unfold createModule
  simp only
  apply getModule_wrapper_preserved
  rw [createIso_wrappers_eq]
  exact hw

theorem applyGraphOp_map_preserved (provider : String → Option String)
    (evalFails : String → Bool) (st : GraphState) (op : GraphOp) (k : String) (m : Mod)
    (hk : mget st.modulePromiseMap k = some m) :
    mget ((applyGraphOp provider evalFails st op).modulePromiseMap) k = some m := by
  cases op with
  | getOp d => exact getModule_map_preserved provider evalFails st d k m hk
  | createOp n => exact createModule_map_preserved provider evalFails st n k m hk

theorem applyGraphOp_wrapper_preserved (provider : String → Option String)
    (evalFails : String → Bool) (st : GraphState) (op : GraphOp) (w : Nat) (h : Nat)
    (hw : mget st.moduleWrapperMap w = some h) :
    mget ((applyGraphOp provider evalFails st op).moduleWrapperMap) w = some h := by
  cases op with
  | getOp d => exact getModule_wrapper_preserved provider evalFails st d w h hw
  | createOp n => exact createModule_wrapper_preserved provider evalFails st n w h hw

theorem applyGraphOps_map_preserved (provider : String → Option String)
    (evalFails : String → Bool) (st : GraphState) (ops : List GraphOp)
    (k : String) (m : Mod) (hk : mget st.modulePromiseMap k = some m) :
    mget ((applyGraphOps provider evalFails st ops).modulePromiseMap) k = some m := by
  induction ops generalizing st with
  | nil => exact hk
  | cons op t ih =>
    exact ih _ (applyGraphOp_map_preserved provider evalFails st op k m hk)

theorem applyGraphOps_wrapper_preserved (provider : String → Option String)
    (evalFails : String → Bool) (st : GraphState) (ops : List GraphOp)
    (w : Nat) (h : Nat) (hw : mget st.moduleWrapperMap w = some h) :
    mget ((applyGraphOps provider evalFails st ops).moduleWrapperMap) w = some h := by
  induction ops generalizing st with
  | nil => exact hw
  | cons op t ih =>
    exact ih _ (applyGraphOp_wrapper_preserved provider evalFails st op w h hw)

theorem awaitMod_ok (m m' : Mod) (h : awaitMod m = .ok m') : m = m' ∧ m.failed = false := by
  unfold awaitMod at h
  cases hf : m.failed with
  | true => rw [hf] at h; simp at h
  | false =>
    rw [hf] at h
    simp only [Bool.false_eq_true, if_false, Except.ok.injEq] at h
    exact ⟨h, rfl⟩

theorem NB_mset1 (map : List (String × Mod)) (name : String) (mnew : Mod)
    (hnb : ∀ k m, mget map k = some m → mget map m.name = some m)
    (hn : mget map name = none) (hname : mnew.name = name) :
    ∀ k m, mget (mset map name mnew) k = some m →
      mget (mset map name mnew) m.name = some m := by
  intro k m hk
  rw [mget_mset] at hk
  by_cases hkn : k = name
  · rw [if_pos hkn] at hk
    obtain rfl : mnew = m := Option.some.inj hk
    rw [hname, mget_mset_self]
  · rw [if_neg hkn] at hk
    have hb := hnb k m hk
    have hmn : m.name ≠ name := fun hc => by rw [hc, hn] at hb; cases hb
    rw [mget_mset, if_neg hmn]
    exact hb

theorem NB_mset2 (map : List (String × Mod)) (name d : String) (mnew : Mod)
    (hnb : ∀ k m, mget map k = some m → mget map m.name = some m)
    (hn : mget map name = none) (hd : mget map d = none) (hname : mnew.name = name) :
    ∀ k m, mget (mset (mset map name mnew) d mnew) k = some m →
      mget (mset (mset map name mnew) d mnew) m.name = some m := by
  intro k m hk
  rw [mget_mset] at hk
  by_cases hkd : k = d
  · rw [if_pos hkd] at hk
    obtain rfl : mnew = m := Option.some.inj hk
    rw [hname, mget_mset]
    by_cases hnd : name = d
    · rw [if_pos hnd]
    · rw [if_neg hnd, mget_mset_self]
  · rw [if_neg hkd] at hk
    rw [mget_mset] at hk
    by_cases hkn : k = name
    · rw [if_pos hkn] at hk
      obtain rfl : mnew = m := Option.some.inj hk
      rw [hname, mget_mset]
      by_cases hnd : name = d
      · rw [if_pos hnd]
      · rw [if_neg hnd, mget_mset_self]
    · rw [if_neg hkn] at hk
      have hb := hnb k m hk
      have hmn : m.name ≠ name := fun hc => by rw [hc, hn] at hb; cases hb
      have hmd : m.name ≠ d := fun hc => by rw [hc, hd] at hb; cases hb
      rw [mget_mset, if_neg hmd, mget_mset, if_neg hmn]
      exact hb

theorem NB_createIso_nil (evalFails : String → Bool) (st : GraphState) (name : String)
    (hnb : NameBound st) : NameBound (createIsolatedModule evalFails st name []).1 := by
  unfold createIsolatedModule
  cases hn : mget st.modulePromiseMap name with
  | some m1 => exact hnb
  | none =>
    dsimp only [List.foldl]
    intro k m hk
    exact NB_mset1 st.modulePromiseMap name ⟨st.nextMid, name, evalFails name⟩ hnb hn rfl k m hk

theorem NB_createIso_single (evalFails : String → Bool) (st : GraphState)
    (name d : String) (hn : mget st.modulePromiseMap name = none)
    (hd : mget st.modulePromiseMap d = none) (hnb : NameBound st) :
    NameBound (createIsolatedModule evalFails st name [d]).1 := by
  unfold createIsolatedModule
  rw [hn]
  dsimp only [List.foldl]
  intro k m hk
  exact NB_mset2 st.modulePromiseMap name d ⟨st.nextMid, name, evalFails name⟩ hnb hn hd rfl k m hk

theorem NB_getIso (provider : String → Option String) (evalFails : String → Bool)
    (st : GraphState) (d : String) (hnb : NameBound st) :
    NameBound (getIsolatedModule provider evalFails st d).1 := by
  unfold getIsolatedModule
  cases h1 : mget st.modulePromiseMap d with
  | some m1 => exact hnb
  | none =>
    dsimp only
    cases h2 : provider d with
    | none => exact hnb
    | some name =>
      dsimp only
      cases h3 : mget st.modulePromiseMap name with
      | some m3 => exact hnb
      | none =>
        dsimp only
        exact NB_createIso_single evalFails st name d h3 h1 hnb

theorem NB_getModule (provider : String → Option String) (evalFails : String → Bool)
    (st : GraphState) (d : String) (hnb : NameBound st) :
    NameBound (getModule provider evalFails st d).1 := by
  intro k m hk
  rw [getModule_map_eq] at hk ⊢
  exact NB_getIso provider evalFails st d hnb k m hk

theorem NB_createModule (provider : String → Option String) (evalFails : String → Bool)
    (st : GraphState) (n : String) (hnb : NameBound st) :
    NameBound (createModule provider evalFails st n).1 := by
  unfold createModule
  dsimp only
  exact NB_getModule provider evalFails _ n (NB_createIso_nil evalFails st n hnb)

theorem NB_applyGraphOp (provider : String → Option String) (evalFails : String → Bool)
    (st : GraphState) (op : GraphOp) (hnb : NameBound st) :
    NameBound (applyGraphOp provider evalFails st op) := by
  cases op with
  | getOp d => exact NB_getModule provider evalFails st d hnb
  | createOp n => exact NB_createModule provider evalFails st n hnb

theorem NB_applyGraphOps (provider : String → Option String) (evalFails : String → Bool)
    (st : GraphState) (ops : List GraphOp) (hnb : NameBound st) :
    NameBound (applyGraphOps provider evalFails st ops) := by
  induction ops generalizing st with
  | nil => exact hnb
  | cons op t ih => exact ih _ (NB_applyGraphOp provider evalFails st op hnb)

theorem getModule_key_hit (provider : String → Option String) (evalFails : String → Bool)
    (st : GraphState) (k : String) (m : Mod) (h : Nat)
    (hk : mget st.modulePromiseMap k = some m) (hf : m.failed = false)
    (hw : mget st.moduleWrapperMap m.mid = some h) :
    getModule provider evalFails st k = (st, .ok h) := by
  unfold getModule getIsolatedModule
  rw [hk]
  dsimp only
  unfold awaitMod
  rw [hf]
  simp only [Bool.false_eq_true, if_false]
  simp [hw]

theorem getModule_alias_hit (provider : String → Option String) (evalFails : String → Bool)
    (st : GraphState) (a nm : String) (m : Mod) (h : Nat)
    (ha : mget st.modulePromiseMap a = none) (hp : provider a = some nm)
    (hk : mget st.modulePromiseMap nm = some m) (hf : m.failed = false)
    (hw : mget st.moduleWrapperMap m.mid = some h) :
    getModule provider evalFails st a = (st, .ok h) := by
  unfold getModule getIsolatedModule
  rw [ha]
  dsimp only
  rw [hp]
  dsimp only
  rw [hk]
  dsimp only
  unfold awaitMod
  rw [hf]
  simp only [Bool.false_eq_true, if_false]
  simp [hw]

theorem createIso_fresh (evalFails : String → Bool) (st : GraphState)
    (name d : String) (hn : mget st.modulePromiseMap name = none) :
    createIsolatedModule evalFails st name [d]
      = ({ st with
            modulePromiseMap :=
              mset (mset st.modulePromiseMap name ⟨st.nextMid, name, evalFails name⟩) d
                ⟨st.nextMid, name, evalFails name⟩,
            nextMid := st.nextMid + 1 },
         awaitMod ⟨st.nextMid, name, evalFails name⟩) := by
  unfold createIsolatedModule
  rw [hn]
  dsimp only [List.foldl]

theorem getIso_ok_props (provider : String → Option String) (evalFails : String → Bool)
    (st st1 : GraphState) (d : String) (m : Mod)
    (hnb : NameBound st)
    (hgi : getIsolatedModule provider evalFails st d = (st1, .ok m)) :
    m.failed = false ∧ mget st1.modulePromiseMap m.name = some m ∧ NameBound st1 ∧
      ∀ nm, mget st.modulePromiseMap d = none → provider d = some nm →
        mget st.modulePromiseMap nm = none →
        m.name = nm ∧ mget st1.modulePromiseMap d = some m := by
  unfold getIsolatedModule at hgi
  cases h1 : mget st.modulePromiseMap d with
  | some m1 =>
    rw [h1] at hgi
    dsimp only at hgi
    rw [Prod.mk.injEq] at hgi
    obtain ⟨hst, hr⟩ := hgi
    obtain ⟨rfl, hf⟩ := awaitMod_ok m1 m hr
    subst hst
    refine ⟨hf, hnb d m1 h1, hnb, ?_⟩
    intro nm hd
    simp at hd
  | none =>
    rw [h1] at hgi
    dsimp only at hgi
    cases h2 : provider d with
    | none =>
      rw [h2] at hgi
      dsimp only at hgi
      rw [Prod.mk.injEq] at hgi
      cases hgi.2
    | some name =>
      rw [h2] at hgi
      dsimp only at hgi
      cases h3 : mget st.modulePromiseMap name with
      | some m3 =>
        rw [h3] at hgi
        dsimp only at hgi
        rw [Prod.mk.injEq] at hgi
        obtain ⟨hst, hr⟩ := hgi
        obtain ⟨rfl, hf⟩ := awaitMod_ok m3 m hr
        subst hst
        refine ⟨hf, hnb name m3 h3, hnb, ?_⟩
        intro nm hd hp hnone
        obtain rfl : name = nm := Option.some.inj hp
        rw [h3] at hnone
        cases hnone
      | none =>
        rw [h3] at hgi
        dsimp only at hgi
        rw [createIso_fresh evalFails st name d h3] at hgi
        rw [Prod.mk.injEq] at hgi
        obtain ⟨hst, hr⟩ := hgi
        obtain ⟨hm, hf⟩ := awaitMod_ok _ m hr
        refine ⟨hm ▸ hf, ?_, ?_, ?_⟩
        · rw [← hst, ← hm]
          show mget (mset (mset st.modulePromiseMap name ⟨st.nextMid, name, evalFails name⟩) d
              ⟨st.nextMid, name, evalFails name⟩) name
            = some ⟨st.nextMid, name, evalFails name⟩
          rw [mget_mset]
          by_cases hnd : name = d
          · rw [if_pos hnd]
          · rw [if_neg hnd, mget_mset_self]
        · intro k mk hk
          rw [← hst] at hk ⊢
          exact NB_mset2 st.modulePromiseMap name d ⟨st.nextMid, name, evalFails name⟩
            hnb h3 h1 rfl k mk hk
        · intro nm hd hp hnone
          obtain rfl : name = nm := Option.some.inj hp
          constructor
          · rw [← hm]
          · rw [← hst, ← hm]
            show mget (mset (mset st.modulePromiseMap name ⟨st.nextMid, name, evalFails name⟩) d
                ⟨st.nextMid, name, evalFails name⟩) d
              = some ⟨st.nextMid, name, evalFails name⟩
            rw [mget_mset_self]

theorem c7_core (provider : String → Option String) (evalFails : String → Bool)
    (st1 : GraphState) (m : Mod) (h : Nat)
    (hf : m.failed = false) (hname1 : mget st1.modulePromiseMap m.name = some m)
    (hw1 : mget st1.moduleWrapperMap m.mid = some h) :
    (∀ ops : List GraphOp,
      getModule provider evalFails (applyGraphOps provider evalFails st1 ops) m.name
        = (applyGraphOps provider evalFails st1 ops, .ok h)) ∧
    (∀ (ops : List GraphOp) (a : String), provider a = some m.name →
      (mget (applyGraphOps provider evalFails st1 ops).modulePromiseMap a = none ∨
        mget (applyGraphOps provider evalFails st1 ops).modulePromiseMap a = some m) →
      getModule provider evalFails (applyGraphOps provider evalFails st1 ops) a
        = (applyGraphOps provider evalFails st1 ops, .ok h)) := by
  constructor
  · intro ops
    exact getModule_key_hit provider evalFails _ m.name m h
      (applyGraphOps_map_preserved provider evalFails st1 ops m.name m hname1) hf
      (applyGraphOps_wrapper_preserved provider evalFails st1 ops m.mid h hw1)
  · intro ops a hpa hcase
    have hk2 := applyGraphOps_map_preserved provider evalFails st1 ops m.name m hname1
    have hw2 := applyGraphOps_wrapper_preserved provider evalFails st1 ops m.mid h hw1
    rcases hcase with hnone | hsome
    · exact getModule_alias_hit provider evalFails _ a m.name m h hnone hpa hk2 hf hw2
    · exact getModule_key_hit provider evalFails _ a m h hsome hf hw2

/-! ## Theorems for claims C7 and C1 -/

/-- C7 amended: when getModule resolves a descriptor to a wrapper handle in
a graph where every module is bound under its own canonical name, the
resolved module stays bound under its canonical name with that wrapper,
and after every further sequence of operations getModule on the canonical
name still returns the same handle with the state unchanged; getModule on
an alias that the SourceProvider maps to the canonical name also returns
the same handle, provided the alias key itself is unbound or bound to this
very module (a later createModule can bind the alias key to a distinct
fresh module, which is the corrected part of the claim); and when the call
was the first resolution, both the canonical name and the requesting
descriptor are stored for the module. -/
theorem c7_amended_same_handle (provider : String → Option String)
    (evalFails : String → Bool) (st st1 : GraphState) (d : String) (h : Nat)
    (hnb : NameBound st)
    (hrun : getModule provider evalFails st d = (st1, .ok h)) :
    ∃ m : Mod, m.failed = false ∧
      mget st1.modulePromiseMap m.name = some m ∧
      mget st1.moduleWrapperMap m.mid = some h ∧
      (∀ ops : List GraphOp,
        getModule provider evalFails (applyGraphOps provider evalFails st1 ops) m.name
          = (applyGraphOps provider evalFails st1 ops, .ok h)) ∧
      (∀ (ops : List GraphOp) (a : String), provider a = some m.name →
        (mget (applyGraphOps provider evalFails st1 ops).modulePromiseMap a = none ∨
          mget (applyGraphOps provider evalFails st1 ops).modulePromiseMap a = some m) →
        getModule provider evalFails (applyGraphOps provider evalFails st1 ops) a
          = (applyGraphOps provider evalFails st1 ops, .ok h)) ∧
      (∀ nm, mget st.modulePromiseMap d = none → provider d = some nm →
        mget st.modulePromiseMap nm = none →
        m.name = nm ∧ mget st1.modulePromiseMap d = some m) := by
  unfold getModule at hrun
  cases hgi : getIsolatedModule provider evalFails st d with
  | mk st2 r =>
    rw [hgi] at hrun
    cases r with
    | error e =>
      dsimp only at hrun
      rw [Prod.mk.injEq] at hrun
      cases hrun.2
    | ok m =>
      dsimp only at hrun
      obtain ⟨hf, hname, hnb1, hfirst⟩ := getIso_ok_props provider evalFails st st2 d m hnb hgi
      cases hw : mget st2.moduleWrapperMap m.mid with
      | some w =>
        rw [hw] at hrun
        dsimp only at hrun
        rw [Prod.mk.injEq] at hrun
        obtain ⟨hst, hok⟩ := hrun
        obtain rfl : w = h := Except.ok.inj hok
        subst hst
        have hcore := c7_core provider evalFails st2 m w hf hname hw
        exact ⟨m, hf, hname, hw, hcore.1, hcore.2, hfirst⟩
      | none =>
        rw [hw] at hrun
        dsimp only at hrun
        rw [Prod.mk.injEq] at hrun
        obtain ⟨hst, hok⟩ := hrun
        obtain rfl : st2.nextWrapperId = h := Except.ok.inj hok
        have hw1 : mget st1.moduleWrapperMap m.mid = some st2.nextWrapperId := by
          rw [← hst]
          exact mget_mset_self _ _ _
        have hmap1 : st1.modulePromiseMap = st2.modulePromiseMap := by
          rw [← hst]
        have hname1 : mget st1.modulePromiseMap m.name = some m := by
          rw [hmap1]
          exact hname
        have hcore := c7_core provider evalFails st1 m st2.nextWrapperId hf hname1 hw1
        refine ⟨m, hf, hname1, hw1, hcore.1, hcore.2, ?_⟩
        intro nm hd hp hnone
        obtain ⟨ha, hb⟩ := hfirst nm hd hp hnone
        exact ⟨ha, by rw [hmap1]; exact hb⟩

/-- C7 counterexample: with the alias provider, getModule("foo") first
returns the wrapper of index.js (handle 0), but after createModule("foo")
inserts a fresh module under the alias key, getModule("foo") returns the
new wrapper (handle 1): an alias accepted by the SourceProvider does not
keep returning the same handle forever. -/
theorem c7_counterexample :
    (getModule aliasProvider efNever c7State1 "foo").2 = .ok 0 ∧
    (getModule aliasProvider efNever c7State3 "foo").2 = .ok 1 ∧
    (Except.ok 1 : Except ModErr Nat) ≠ .ok 0 := by
  decide

/-- Witness for the amended C7 at the concrete first resolution of
index.js on the empty graph. -/
theorem c7_amended_witness :
    ∃ m : Mod, m.failed = false ∧
      mget c7State1.modulePromiseMap m.name = some m ∧
      mget c7State1.moduleWrapperMap m.mid = some 0 ∧
      (∀ ops : List GraphOp,
        getModule aliasProvider efNever (applyGraphOps aliasProvider efNever c7State1 ops) m.name
          = (applyGraphOps aliasProvider efNever c7State1 ops, .ok 0)) ∧
      (∀ (ops : List GraphOp) (a : String), aliasProvider a = some m.name →
        (mget (applyGraphOps aliasProvider efNever c7State1 ops).modulePromiseMap a = none ∨
          mget (applyGraphOps aliasProvider efNever c7State1 ops).modulePromiseMap a = some m) →
        getModule aliasProvider efNever (applyGraphOps aliasProvider efNever c7State1 ops) a
          = (applyGraphOps aliasProvider efNever c7State1 ops, .ok 0)) ∧
      (∀ nm, mget emptyGraph.modulePromiseMap "index.js" = none →
        aliasProvider "index.js" = some nm →
        mget emptyGraph.modulePromiseMap nm = none →
        m.name = nm ∧ mget c7State1.modulePromiseMap "index.js" = some m) :=
  c7_amended_same_handle aliasProvider efNever emptyGraph c7State1 "index.js" 0
    (fun _ _ hk => Option.noConfusion hk) (by decide)

/-- C1 amended: when a module already exists under a name, a second
createModule for that name raises ModuleAlreadyExists only as a detached
rejection discarded by the void; the promise map is unchanged, the
existing entry is intact, and when the first module evaluated and already
has a wrapper the call returns that same wrapper handle with the whole
state unchanged. -/
theorem c1_amended_duplicate_create (provider : String → Option String)
    (evalFails : String → Bool) (st : GraphState) (n : String) (m : Mod)
    (hm : mget st.modulePromiseMap n = some m) :
    (createModule provider evalFails st n).2.2 = some (.moduleAlreadyExists n) ∧
    ((createModule provider evalFails st n).1).modulePromiseMap = st.modulePromiseMap ∧
    mget ((createModule provider evalFails st n).1).modulePromiseMap n = some m ∧
    (m.failed = false → ∀ h, mget st.moduleWrapperMap m.mid = some h →
      createModule provider evalFails st n = (st, .ok h, some (.moduleAlreadyExists n))) := by
  have hcis : createIsolatedModule evalFails st n [] = (st, .error (.moduleAlreadyExists n)) := by
    unfold createIsolatedModule
    rw [hm]
  have hgiso : getIsolatedModule provider evalFails st n = (st, awaitMod m) := by
    unfold getIsolatedModule
    rw [hm]
  have hcm : createModule provider evalFails st n
      = ((getModule provider evalFails st n).1, (getModule provider evalFails st n).2,
         some (.moduleAlreadyExists n)) := by
    unfold createModule
    rw [hcis]
  refine ⟨?_, ?_, ?_, ?_⟩
  · simp [hcm]
  · simp [hcm, getModule_map_eq, hgiso]
  · simp [hcm, getModule_map_eq, hgiso, hm]
  · intro hf h hw
    rw [hcm, getModule_key_hit provider evalFails st n m h hm hf hw]

/-- C1 counterexample: after createModule("a") on the empty graph, a second
createModule("a") does not fail at the caller: the ModuleAlreadyExists
rejection is detached by the void and the returned result is the first
module wrapper handle 0, the same handle the first call returned. -/
theorem c1_counterexample :
    (createModule noProvider efNever emptyGraph "a").2.1 = .ok 0 ∧
    (createModule noProvider efNever c1State1 "a").2.1 = .ok 0 ∧
    (createModule noProvider efNever c1State1 "a").2.2
      = some (.moduleAlreadyExists "a") := by
  decide

/-- Witness for the amended C1 after the concrete first createModule of
module a. -/
theorem c1_amended_witness :
    (createModule noProvider efNever c1State1 "a").2.2
      = some (.moduleAlreadyExists "a") ∧
    createModule noProvider efNever c1State1 "a"
      = (c1State1, .ok 0, some (.moduleAlreadyExists "a")) :=
  ⟨(c1_amended_duplicate_create noProvider efNever c1State1 "a" ⟨0, "a", false⟩ (by decide)).1,
   (c1_amended_duplicate_create noProvider efNever c1State1 "a" ⟨0, "a", false⟩
      (by decide)).2.2.2 (by decide) 0 (by decide)⟩

end VarhubIVM
